import Mathlib

/-!
# Verification of the dprint-vscode reinitialization controller and LSP backend session

Shallow embedding of the reinitialization controller of `src/extension.ts`
(the timer-based debounce/coalescing variant: `debounceReInitializeBackend`
and `reInitializeBackend`) and of the LSP backend session returned by
`activateLsp` (its `reInitialize`, `dispose` and `workspaceHasConfigFile`).

The controller runs on a single logical thread (the JS event loop); its
behaviour is modelled as a step function over an explicit state, driven by
events: a trigger invocation, a direct `reInitializeBackend()` call, the
debounce timer firing, and the awaited `backend.reInitialize()` settling
(with or without an error).  Each event corresponds to one synchronous
segment of the source code between suspension points.
-/

namespace DprintVscode

/-- Log messages the embedded code emits (identified, not their full text;
the config-not-found message text is "Configuration file not found."). -/
inductive LogMsg where
  | infoExtensionActive
  | errorInitializing
  | infoConfigFileNotFound
  | infoStartedLanguageServer
  deriving DecidableEq, Repr

/-- State of the reinitialization controller in `activate` (extension.ts).
`isReInitializing` and `pendingReInit` are the source's flags.  The source
variable `reInitializeTimeout` always holds the last created timer handle;
`timerLive` records whether that handle still refers to a pending (armed,
unfired, uncancelled) timeout — `clearTimeout` on a fired or cleared handle
is a no-op, so only liveness is behaviourally relevant.  `liveTimers`
instruments the total number of pending timeouts in the system,
`activeRuns` the number of `backend.reInitialize()` calls currently being
awaited, and `runsStarted` counts how many such calls have ever started. -/
structure CtrlState where
  isReInitializing : Bool
  pendingReInit : Bool
  timerLive : Bool
  liveTimers : Nat
  activeRuns : Nat
  runsStarted : Nat
  log : List LogMsg
  deriving DecidableEq, Repr

/-- The state at the top of `activate`, before any trigger. -/
def ctrlInit : CtrlState :=
  ⟨false, false, false, 0, 0, 0, []⟩

/-- `if (reInitializeTimeout) { clearTimeout(reInitializeTimeout); }`:
cancels the stored timeout when it is still pending; otherwise no effect. -/
def clearStoredTimeout (s : CtrlState) : CtrlState :=
  if s.timerLive then
    { s with timerLive := false, liveTimers := s.liveTimers - 1 }
  else s

/-- `reInitializeTimeout = setTimeout(reInitializeBackend, 250)`. -/
def armTimeout (s : CtrlState) : CtrlState :=
  { s with timerLive := true, liveTimers := s.liveTimers + 1 }

/-- `debounceReInitializeBackend` (extension.ts): clear any stored timeout;
if a run is in flight, just set `pendingReInit`; otherwise arm the timer. -/
def debounceReInitializeBackend (s : CtrlState) : CtrlState :=
  let s := clearStoredTimeout s
  if s.isReInitializing then
    { s with pendingReInit := true }
  else
    armTimeout s

/-- The synchronous prefix of `reInitializeBackend` up to the await of
`backend.reInitialize()`: re-entry guard, then flag set and run start. -/
def enterReInitializeBackend (s : CtrlState) : CtrlState :=
  if s.isReInitializing then
    { s with pendingReInit := true }
  else
    { s with
        isReInitializing := true
        activeRuns := s.activeRuns + 1
        runsStarted := s.runsStarted + 1 }

/-- The resumption of `reInitializeBackend` once `backend.reInitialize()`
settles: the `try` tail / `catch` logging, then the `finally` block.  The
second component is what the async function propagates to its caller; the
`catch` swallows the backend error, so it is always `none`. -/
def finishReInitializeBackend (err : Bool) (s : CtrlState) : CtrlState × Option Unit :=
  let s :=
    if err then { s with log := s.log ++ [LogMsg.errorInitializing] }
    else { s with log := s.log ++ [LogMsg.infoExtensionActive] }
  let s := { s with isReInitializing := false, activeRuns := s.activeRuns - 1 }
  let s :=
    if s.pendingReInit then
      debounceReInitializeBackend { s with pendingReInit := false }
    else s
  (s, none)

/-- Events of the controller: each is one synchronous segment of code. -/
inductive Ev where
  | trigger
  | callReInit
  | fire
  | finish (err : Bool)
  deriving DecidableEq, Repr

/-- One event step.  `fire` only does something when the stored timer is
pending; `finish` only when a run is actually being awaited. -/
def step (s : CtrlState) (e : Ev) : CtrlState :=
  match e with
  | .trigger => debounceReInitializeBackend s
  | .callReInit => enterReInitializeBackend s
  | .fire =>
      if s.timerLive then
        enterReInitializeBackend
          { s with timerLive := false, liveTimers := s.liveTimers - 1 }
      else s
  | .finish err =>
      if 0 < s.activeRuns then (finishReInitializeBackend err s).1 else s

/-- Run a list of events from a state. -/
def run (s : CtrlState) (es : List Ev) : CtrlState :=
  es.foldl step s

/-- Controller state invariant: the `isReInitializing` flag is set exactly
while one run is being awaited; the only pending timeout, if any, is the
stored one; `pendingReInit` is only set while a run is in flight. -/
def CtrlInv (s : CtrlState) : Prop :=
  s.activeRuns = (if s.isReInitializing then 1 else 0) ∧
  s.liveTimers = (if s.timerLive then 1 else 0) ∧
  (s.pendingReInit = true → s.isReInitializing = true)

theorem ctrlInv_init : CtrlInv ctrlInit := by
  refine ⟨rfl, rfl, ?_⟩
  intro h
  exact absurd h (by decide)

set_option maxHeartbeats 1600000 in
theorem ctrlInv_step (s : CtrlState) (e : Ev) (h : CtrlInv s) : CtrlInv (step s e) := by
  obtain ⟨b1, b2, b3, t, a, r, L⟩ := s
  obtain ⟨h1, h2, h3⟩ := h
  simp only [CtrlInv] at h1 h2 h3 ⊢
  cases e with
  | trigger =>
      cases b1 <;> cases b2 <;> cases b3 <;>
        simp_all [step, debounceReInitializeBackend, clearStoredTimeout, armTimeout]
  | callReInit =>
      cases b1 <;> cases b2 <;> cases b3 <;>
        simp_all [step, enterReInitializeBackend]
  | fire =>
      cases b1 <;> cases b2 <;> cases b3 <;>
        simp_all [step, enterReInitializeBackend]
  | finish err =>
      cases err <;> cases b1 <;> cases b2 <;> cases b3 <;>
        simp_all [step, finishReInitializeBackend, debounceReInitializeBackend,
          clearStoredTimeout, armTimeout]

theorem ctrlInv_run (es : List Ev) : CtrlInv (run ctrlInit es) := by
  suffices h : ∀ (es : List Ev) (s : CtrlState), CtrlInv s → CtrlInv (run s es) from
    h es ctrlInit ctrlInv_init
  intro es
  induction es with
  | nil => intro s hs; exact hs
  | cons e es ih =>
      intro s hs
      exact ih (step s e) (ctrlInv_step s e hs)

/-- The mid-run shape of the controller state relative to a base state
`s0`: one run in flight, no run started or logged beyond `s0`, and the
timer bookkeeping consistent. -/
def MidRunShape (s0 s : CtrlState) : Prop :=
  s.isReInitializing = true ∧
  s.activeRuns = 1 ∧
  s.runsStarted = s0.runsStarted ∧
  s.log = s0.log ∧
  s.liveTimers = (if s.timerLive then 1 else 0)

theorem midrun_step (s0 u : CtrlState) (e : Ev)
    (he : e = Ev.trigger ∨ e = Ev.callReInit) (h : MidRunShape s0 u) :
    MidRunShape s0 (step u e) ∧ (step u e).pendingReInit = true := by
  obtain ⟨b1, b2, b3, t, a, r, L⟩ := u
  obtain ⟨h1, h2, h3, h4, h5⟩ := h
  simp only at h1 h2 h3 h4 h5
  subst h1 h2 h3 h4
  rcases he with he | he <;> subst he <;> cases b3 <;>
    simp_all [MidRunShape, step, debounceReInitializeBackend, clearStoredTimeout,
      armTimeout, enterReInitializeBackend]

theorem midrun_run (s0 : CtrlState) (es : List Ev) (hne : es ≠ [])
    (hev : ∀ e ∈ es, e = Ev.trigger ∨ e = Ev.callReInit) :
    ∀ u : CtrlState, MidRunShape s0 u →
      MidRunShape s0 (run u es) ∧ (run u es).pendingReInit = true := by
  induction es with
  | nil => exact absurd rfl hne
  | cons e es ih =>
      intro u hu
      have hstep := midrun_step s0 u e (hev e (by simp)) hu
      rcases es with _ | ⟨e2, es⟩
      · exact hstep
      · have run_cons : run u (e :: e2 :: es) = run (step u e) (e2 :: es) := rfl
        rw [run_cons]
        exact ih (by simp) (fun x hx => hev x (by simp [hx])) (step u e) hstep.1

/-- The `finish` step on a state with the pending flag set, one run in
flight, and consistent timer bookkeeping: the run is logged, the flags are
reset, and one fresh debounce timer is armed. -/
theorem finish_of_pending (u : CtrlState) (err : Bool)
    (hp : u.pendingReInit = true) (ha : u.activeRuns = 1)
    (ht : u.liveTimers = (if u.timerLive then 1 else 0)) :
    step u (Ev.finish err) =
      ⟨false, false, true, 1, 0, u.runsStarted,
        u.log ++ [if err then LogMsg.errorInitializing else LogMsg.infoExtensionActive]⟩ := by
  obtain ⟨b1, b2, b3, t, a, r, L⟩ := u
  simp only at hp ha ht
  subst hp ha
  cases err <;> cases b3 <;>
    simp_all [step, finishReInitializeBackend, debounceReInitializeBackend,
      clearStoredTimeout, armTimeout]

/-- C1.  Mid-run coalescing: for any nonempty burst of trigger events
(either `debounceReInitializeBackend` invocations or direct
`reInitializeBackend()` calls) arriving while a run is in flight, no new
run starts during the burst, the pending flag ends set, and once the run
completes the pending flag is cleared and the debounce timer is armed
exactly once; the state after completion does not depend on the burst — it
equals the state reached with a single trigger. -/
theorem midrun_coalescing (s : CtrlState) (es : List Ev) (err : Bool)
    (hne : es ≠ [])
    (hev : ∀ e ∈ es, e = Ev.trigger ∨ e = Ev.callReInit)
    (hrun : s.isReInitializing = true)
    (hact : s.activeRuns = 1)
    (htim : s.liveTimers = (if s.timerLive then 1 else 0)) :
    (run s es).runsStarted = s.runsStarted ∧
    (run s es).pendingReInit = true ∧
    step (run s es) (Ev.finish err) = step (run s [Ev.trigger]) (Ev.finish err) ∧
    (step (run s es) (Ev.finish err)).pendingReInit = false ∧
    (step (run s es) (Ev.finish err)).timerLive = true ∧
    (step (run s es) (Ev.finish err)).liveTimers = 1 ∧
    (step (run s es) (Ev.finish err)).runsStarted = s.runsStarted := by
  have hbase : MidRunShape s s := ⟨hrun, hact, rfl, rfl, htim⟩
  have h1 := midrun_run s es hne hev s hbase
  have h2 := midrun_run s [Ev.trigger] (by simp) (by simp) s hbase
  have c1 := finish_of_pending (run s es) err h1.2 h1.1.2.1 h1.1.2.2.2.2
  have c2 := finish_of_pending (run s [Ev.trigger]) err h2.2 h2.1.2.1 h2.1.2.2.2.2
  refine ⟨h1.1.2.2.1, h1.2, ?_, ?_, ?_, ?_, ?_⟩ <;>
    rw [c1] <;>
    simp [c2, h1.1.2.2.1, h1.1.2.2.2.1, h2.1.2.2.1, h2.1.2.2.2.1]

/-- C2.  No-overlap: in every state reachable from startup, at most one
`backend.reInitialize()` call is in flight, the `isReInitializing` flag is
set exactly while it is (so it spans the whole run), and a
`reInitializeBackend()` call made while the flag is set starts no second
run. -/
theorem reInitializeBackend_no_overlap :
    (∀ es : List Ev, (run ctrlInit es).activeRuns ≤ 1) ∧
    (∀ es : List Ev,
      (run ctrlInit es).activeRuns =
        (if (run ctrlInit es).isReInitializing then 1 else 0)) ∧
    (∀ s : CtrlState,
      (enterReInitializeBackend s).runsStarted =
        (if s.isReInitializing then s.runsStarted else s.runsStarted + 1)) ∧
    (∀ s : CtrlState,
      (enterReInitializeBackend s).activeRuns =
        (if s.isReInitializing then s.activeRuns else s.activeRuns + 1)) := by
  refine ⟨?_, fun es => (ctrlInv_run es).1, ?_, ?_⟩
  · intro es
    have h := (ctrlInv_run es).1
    split at h <;> omega
  · intro s
    by_cases hb : s.isReInitializing = true <;>
      simp [enterReInitializeBackend, hb]
  · intro s
    by_cases hb : s.isReInitializing = true <;>
      simp [enterReInitializeBackend, hb]

theorem step_trigger_idle (s : CtrlState)
    (hrun : s.isReInitializing = false)
    (htim : s.liveTimers = (if s.timerLive then 1 else 0)) :
    step s Ev.trigger = { s with timerLive := true, liveTimers := 1 } := by
  obtain ⟨b1, b2, b3, t, a, r, L⟩ := s
  simp only at hrun htim
  subst hrun
  cases b3 <;>
    simp_all [step, debounceReInitializeBackend, clearStoredTimeout, armTimeout]

theorem run_replicate_trigger_fixed (u : CtrlState) (k : Nat)
    (hfix : step u Ev.trigger = u) :
    run u (List.replicate k Ev.trigger) = u := by
  induction k with
  | zero => rfl
  | succ k ih =>
      have : run u (List.replicate (k + 1) Ev.trigger)
          = run (step u Ev.trigger) (List.replicate k Ev.trigger) := rfl
      rw [this, hfix]
      exact ih

theorem triggers_arm_once (s : CtrlState) (k : Nat) (hk : 1 ≤ k)
    (hrun : s.isReInitializing = false)
    (htim : s.liveTimers = (if s.timerLive then 1 else 0)) :
    run s (List.replicate k Ev.trigger) = { s with timerLive := true, liveTimers := 1 } := by
  obtain ⟨k, rfl⟩ : ∃ j, k = j + 1 := ⟨k - 1, by omega⟩
  have hcons : run s (List.replicate (k + 1) Ev.trigger)
      = run (step s Ev.trigger) (List.replicate k Ev.trigger) := rfl
  rw [hcons, step_trigger_idle s hrun htim]
  apply run_replicate_trigger_fixed
  exact step_trigger_idle { s with timerLive := true, liveTimers := 1 } hrun rfl

/-- C3.  Debounce coalescing: from an idle state (no run in flight, no
pending flag), any burst of n triggers before the timer fires leaves
exactly one live timer after every prefix of the burst and starts no run;
when the timer fires exactly one run starts, consuming the timer; and
completing that run schedules nothing further, so exactly one run occurs
in total. -/
theorem debounce_coalescing (s : CtrlState) (n : Nat) (err : Bool)
    (hn : 1 ≤ n)
    (hrun : s.isReInitializing = false)
    (hpend : s.pendingReInit = false)
    (hact : s.activeRuns = 0)
    (htim : s.liveTimers = (if s.timerLive then 1 else 0)) :
    (∀ k, 1 ≤ k → k ≤ n → (run s (List.replicate k Ev.trigger)).liveTimers = 1) ∧
    (run s (List.replicate n Ev.trigger)).runsStarted = s.runsStarted ∧
    (step (run s (List.replicate n Ev.trigger)) Ev.fire).runsStarted = s.runsStarted + 1 ∧
    (step (run s (List.replicate n Ev.trigger)) Ev.fire).activeRuns = 1 ∧
    (step (run s (List.replicate n Ev.trigger)) Ev.fire).liveTimers = 0 ∧
    (step (step (run s (List.replicate n Ev.trigger)) Ev.fire) (Ev.finish err)).runsStarted
      = s.runsStarted + 1 ∧
    (step (step (run s (List.replicate n Ev.trigger)) Ev.fire) (Ev.finish err)).liveTimers
      = 0 ∧
    (step (step (run s (List.replicate n Ev.trigger)) Ev.fire) (Ev.finish err)).pendingReInit
      = false := by
  obtain ⟨b1, b2, b3, t, a, r, L⟩ := s
  simp only at hrun hpend hact htim
  subst hrun hpend hact
  have harm := triggers_arm_once ⟨false, false, b3, t, 0, r, L⟩ n hn rfl htim
  refine ⟨?_, ?_, ?_, ?_, ?_, ?_, ?_, ?_⟩ <;>
    try intro k hk1 hk2
  all_goals
    first
    | (rw [triggers_arm_once ⟨false, false, b3, t, 0, r, L⟩ k hk1 rfl htim])
    | (rw [harm])
  all_goals
    cases err <;>
      simp [step, enterReInitializeBackend, finishReInitializeBackend,
        debounceReInitializeBackend, clearStoredTimeout, armTimeout]

/-- The controller-relevant fields of a state (everything but the log). -/
def ctrlCore (s : CtrlState) : Bool × Bool × Bool × Nat × Nat × Nat :=
  (s.isReInitializing, s.pendingReInit, s.timerLive, s.liveTimers, s.activeRuns, s.runsStarted)

/-- C4.  For every outcome of the awaited `backend.reInitialize()` the
async `reInitializeBackend` propagates nothing to its caller (the error is
caught and logged), and the `finally` bookkeeping runs unconditionally:
the running flag is dropped, the run is retired and the pending flag is
examined and cleared, identically in the success and the error case. -/
theorem run_cleanup_unconditional (s : CtrlState) (err : Bool) :
    (finishReInitializeBackend err s).2 = none ∧
    (finishReInitializeBackend err s).1.isReInitializing = false ∧
    (finishReInitializeBackend err s).1.pendingReInit = false ∧
    (finishReInitializeBackend err s).1.activeRuns = s.activeRuns - 1 ∧
    (finishReInitializeBackend true s).1.log = s.log ++ [LogMsg.errorInitializing] ∧
    (finishReInitializeBackend false s).1.log = s.log ++ [LogMsg.infoExtensionActive] ∧
    ctrlCore (finishReInitializeBackend true s).1
      = ctrlCore (finishReInitializeBackend false s).1 := by
  obtain ⟨b1, b2, b3, t, a, r, L⟩ := s
  cases err <;> cases b2 <;> cases b3 <;>
    simp [ctrlCore, finishReInitializeBackend, debounceReInitializeBackend,
      clearStoredTimeout, armTimeout]

theorem midrun_coalescing_witness :
    (step (run ⟨true, false, false, 0, 1, 1, []⟩ [Ev.trigger, Ev.callReInit])
        (Ev.finish false)).pendingReInit = false ∧
    (step (run ⟨true, false, false, 0, 1, 1, []⟩ [Ev.trigger, Ev.callReInit])
        (Ev.finish false)).liveTimers = 1 := by
  have h := midrun_coalescing ⟨true, false, false, 0, 1, 1, []⟩
    [Ev.trigger, Ev.callReInit] false (by decide) (by decide) rfl rfl (by decide)
  exact ⟨h.2.2.2.1, h.2.2.2.2.2.1⟩

theorem debounce_coalescing_witness :
    (step (run ctrlInit (List.replicate 3 Ev.trigger)) Ev.fire).runsStarted = 0 + 1 ∧
    (step (step (run ctrlInit (List.replicate 3 Ev.trigger)) Ev.fire)
        (Ev.finish true)).liveTimers = 0 := by
  have h := debounce_coalescing ctrlInit 3 true (by decide) rfl rfl rfl rfl
  exact ⟨h.2.2.1, h.2.2.2.2.2.2.1⟩

/-!
## The LSP backend session (src/lsp.ts, `activateLsp`)

The session owns one `LanguageClient` handle in the closure variable
`client`.  External collaborators are abstracted by an environment:
configuration discovery (`discoverWorkspaceConfigFiles`, keyed by the
`maxResults` argument, and `ancestorDirsContainConfigFile`, keyed by the
folder uri), the success of `DprintExecutable.resolveCmdPath`, and the
success of `client.start()`.  Handles are numbered in creation order;
`live` instruments the set of constructed, not-yet-disposed clients.
`stop(2_000)` is best-effort and non-throwing per its declared contract,
so teardown is modelled as a total state change. -/

/-- Environment seen by `workspaceHasConfigFile`: the result list of
`discoverWorkspaceConfigFiles` as a function of `maxResults`, the
workspace folder uris in order, and the result of
`ancestorDirsContainConfigFile` per folder uri. -/
structure DiscEnv where
  discover : Nat → List Nat
  workspaceFolders : List Nat
  ancestorDirsContain : Nat → Bool

/-- `workspaceHasConfigFile` (lsp.ts): workspace discovery with
`maxResults: 1`; if empty, consult the ancestor directories of the first
workspace folder, if any. -/
def workspaceHasConfigFile (env : DiscEnv) : Bool :=
  if 0 < (env.discover 1).length then true
  else
    match env.workspaceFolders.head? with
    | none => false
    | some folderUri => env.ancestorDirsContain folderUri

/-- Errors propagating out of the session's reinitialize. -/
inductive LspErr where
  | resolutionFailed
  | connectionFailed
  deriving DecidableEq, Repr

/-- State of the LSP session closure: the stored `client` handle, the
instrumented list of live (constructed, undisposed) clients, the next
fresh handle id, and the log. -/
structure LspState where
  client : Option Nat
  live : List Nat
  nextId : Nat
  log : List LogMsg
  deriving DecidableEq, Repr

/-- The session state when `activateLsp` returns. -/
def lspInit : LspState :=
  ⟨none, [], 0, []⟩

/-- Environment of one session reinitialize: discovery plus the outcomes
of executable resolution and of `client.start()`. -/
structure LspEnv where
  disc : DiscEnv
  resolveOk : Bool
  startOk : Bool

/-- `if (client) { await client.stop(2_000); client.dispose(); client =
undefined; }` — the common teardown of `reInitialize` and `dispose`. -/
def releaseClient (s : LspState) : LspState :=
  match s.client with
  | none => s
  | some h => { s with client := none, live := s.live.erase h }

/-- The session's `reInitialize` (lsp.ts): tear down any existing client,
gate on configuration discovery, resolve the executable (which may throw),
construct the new client, start it (which may throw), and log. -/
def reInitializeSession (env : LspEnv) (s : LspState) : LspState × Option LspErr :=
  let s := releaseClient s
  if workspaceHasConfigFile env.disc = false then
    ({ s with log := s.log ++ [LogMsg.infoConfigFileNotFound] }, none)
  else if env.resolveOk = false then
    (s, some LspErr.resolutionFailed)
  else
    let s := { s with
        client := some s.nextId
        live := s.live ++ [s.nextId]
        nextId := s.nextId + 1 }
    if env.startOk = false then
      (s, some LspErr.connectionFailed)
    else
      ({ s with log := s.log ++ [LogMsg.infoStartedLanguageServer] }, none)

/-- The session's `dispose` (lsp.ts): same teardown; nothing in it can
throw, so the propagated error is always `none`. -/
def disposeSession (s : LspState) : LspState × Option LspErr :=
  (releaseClient s, none)

/-- Session handle invariant: the live clients are exactly the stored one,
and every live handle id is below the fresh-id counter. -/
def liveInv (s : LspState) : Prop :=
  s.live = s.client.toList ∧ ∀ h ∈ s.live, h < s.nextId

theorem releaseClient_of_liveInv (s : LspState) (hinv : liveInv s) :
    releaseClient s =
      { client := none, live := [], nextId := s.nextId, log := s.log } := by
  obtain ⟨c, l, n, L⟩ := s
  obtain ⟨h1, h2⟩ := hinv
  cases c <;> simp_all [releaseClient, Option.toList, List.erase_cons_head]

/-- Characterization of one `reInitialize`: the invariant is preserved,
the fresh-id counter never decreases, and every handle alive afterwards
was created during this call. -/
theorem reInit_characterization (env : LspEnv) (s : LspState) (hinv : liveInv s) :
    liveInv (reInitializeSession env s).1 ∧
    s.nextId ≤ (reInitializeSession env s).1.nextId ∧
    (∀ h ∈ (reInitializeSession env s).1.live, s.nextId ≤ h) := by
  have hrel := releaseClient_of_liveInv s hinv
  by_cases hc : workspaceHasConfigFile env.disc = false
  · simp [reInitializeSession, hc, hrel, liveInv, Option.toList]
  · by_cases hr : env.resolveOk = false
    · simp [reInitializeSession, hc, hr, hrel, liveInv, Option.toList]
    · by_cases hs : env.startOk = false <;>
        simp [reInitializeSession, hc, hr, hs, hrel, liveInv, Option.toList]

theorem liveInv_length_le_one (s : LspState) (hinv : liveInv s) : s.live.length ≤ 1 := by
  obtain ⟨h1, h2⟩ := hinv
  rw [h1]
  cases s.client <;> simp [Option.toList]

/-- C5.  Clean restart: `reInitialize` always releases the existing
handle before creating a new one — the prior stored handle never survives
a call — and after two successive completed calls at most one live handle
exists, none of them from before the first call. -/
theorem clean_restart (env1 env2 : LspEnv) (s : LspState) (hinv : liveInv s) :
    liveInv (reInitializeSession env1 s).1 ∧
    (reInitializeSession env1 s).1.live.length ≤ 1 ∧
    (∀ h, s.client = some h → h ∉ (reInitializeSession env1 s).1.live) ∧
    (reInitializeSession env2 (reInitializeSession env1 s).1).1.live.length ≤ 1 ∧
    (∀ h, h ∈ s.live →
      h ∉ (reInitializeSession env2 (reInitializeSession env1 s).1).1.live) := by
  obtain ⟨hinv1, hle1, hmem1⟩ := reInit_characterization env1 s hinv
  obtain ⟨hinv2, hle2, hmem2⟩ :=
    reInit_characterization env2 (reInitializeSession env1 s).1 hinv1
  refine ⟨hinv1, liveInv_length_le_one _ hinv1, ?_, liveInv_length_le_one _ hinv2, ?_⟩
  · intro h hh hmem
    have hlt : h < s.nextId := by
      have := hinv.2 h
      rw [hinv.1, hh] at this
      exact this (by simp [Option.toList])
    exact absurd (hmem1 h hmem) (by omega)
  · intro h hh hmem
    have hlt : h < s.nextId := hinv.2 h hh
    have := hmem2 h hmem
    omega

theorem clean_restart_witness :
    liveInv (reInitializeSession ⟨⟨fun _ => [7], [], fun _ => false⟩, true, true⟩
      ⟨some 0, [0], 1, []⟩).1 ∧
    (reInitializeSession ⟨⟨fun _ => [7], [], fun _ => false⟩, true, true⟩
      ⟨some 0, [0], 1, []⟩).1.live.length ≤ 1 := by
  have h := clean_restart ⟨⟨fun _ => [7], [], fun _ => false⟩, true, true⟩
    ⟨⟨fun _ => [7], [], fun _ => false⟩, true, true⟩ ⟨some 0, [0], 1, []⟩
    (by simp [liveInv, Option.toList])
  exact ⟨h.1, h.2.1⟩

/-- C6.  Config-absent path: when `workspaceHasConfigFile` is false the
call tears down any prior client, appends exactly the informational
"Configuration file not found." message, and returns normally with no
stored handle. -/
theorem config_absent (env : LspEnv) (s : LspState)
    (hc : workspaceHasConfigFile env.disc = false) :
    reInitializeSession env s =
      ({ releaseClient s with log := s.log ++ [LogMsg.infoConfigFileNotFound] }, none) ∧
    (reInitializeSession env s).1.client = none ∧
    (reInitializeSession env s).1.log = s.log ++ [LogMsg.infoConfigFileNotFound] ∧
    (reInitializeSession env s).2 = none := by
  obtain ⟨c, l, n, L⟩ := s
  cases c <;> simp [reInitializeSession, hc, releaseClient]

theorem config_absent_witness :
    (reInitializeSession ⟨⟨fun _ => [], [], fun _ => false⟩, true, true⟩ lspInit).1.client
      = none ∧
    (reInitializeSession ⟨⟨fun _ => [], [], fun _ => false⟩, true, true⟩ lspInit).1.log
      = [] ++ [LogMsg.infoConfigFileNotFound] := by
  have h := config_absent ⟨⟨fun _ => [], [], fun _ => false⟩, true, true⟩ lspInit rfl
  exact ⟨h.2.1, h.2.2.1⟩

/-- C7.  Resolution-failure path: with a configuration present but
executable resolution failing, the failure propagates out of the session's
`reInitialize`, no handle is created or left behind (the prior one was
already released), nothing is logged by the session, and the controller's
resumption swallows the error, logging it instead of rethrowing. -/
theorem resolution_failure (env : LspEnv) (s : LspState) (cs : CtrlState)
    (hinv : liveInv s)
    (hc : workspaceHasConfigFile env.disc = true)
    (hr : env.resolveOk = false) :
    (reInitializeSession env s).2 = some LspErr.resolutionFailed ∧
    (reInitializeSession env s).1.client = none ∧
    (reInitializeSession env s).1.live = [] ∧
    (reInitializeSession env s).1.nextId = s.nextId ∧
    (reInitializeSession env s).1.log = s.log ∧
    (finishReInitializeBackend true cs).2 = none ∧
    (finishReInitializeBackend true cs).1.log = cs.log ++ [LogMsg.errorInitializing] := by
  have hrel := releaseClient_of_liveInv s hinv
  obtain ⟨b1, b2, b3, t, a, r, L⟩ := cs
  refine ⟨?_, ?_, ?_, ?_, ?_, rfl, ?_⟩
  · simp [reInitializeSession, hc, hr, hrel]
  · simp [reInitializeSession, hc, hr, hrel]
  · simp [reInitializeSession, hc, hr, hrel]
  · simp [reInitializeSession, hc, hr, hrel]
  · simp [reInitializeSession, hc, hr, hrel]
  · cases b2 <;> cases b3 <;>
      simp [finishReInitializeBackend, debounceReInitializeBackend,
        clearStoredTimeout, armTimeout]

theorem resolution_failure_witness :
    (reInitializeSession ⟨⟨fun _ => [7], [], fun _ => false⟩, false, true⟩ lspInit).2
      = some LspErr.resolutionFailed ∧
    (reInitializeSession ⟨⟨fun _ => [7], [], fun _ => false⟩, false, true⟩ lspInit).1.live
      = [] ∧
    (finishReInitializeBackend true ctrlInit).1.log = [] ++ [LogMsg.errorInitializing] := by
  have h := resolution_failure ⟨⟨fun _ => [7], [], fun _ => false⟩, false, true⟩
    lspInit ctrlInit (by simp [liveInv, lspInit, Option.toList]) rfl rfl
  exact ⟨h.1, h.2.2.1, h.2.2.2.2.2.2⟩

/-- A concrete environment in which the configuration is found and the
executable resolves, but `client.start()` fails. -/
def connFailEnv : LspEnv :=
  ⟨⟨fun _ => [7], [], fun _ => false⟩, true, false⟩

/-- C8 counterexample: when `client.start()` throws, the stored `client`
variable is NOT reset to `undefined` — the failed client stays assigned,
so the handle is non-null although the session is not running. -/
theorem connection_failure_counterexample :
    (reInitializeSession connFailEnv lspInit).2 = some LspErr.connectionFailed ∧
    ¬ (reInitializeSession connFailEnv lspInit).1.client = none := by
  constructor
  · rfl
  · simp [reInitializeSession, connFailEnv, workspaceHasConfigFile, releaseClient, lspInit]

/-- C8 (amended).  Connection-failure path: if `client.start()` fails the
error propagates as a connection failure, and the freshly constructed
client remains stored (exactly one live handle, the failed one); it is
released by the next teardown (`dispose` or the next `reInitialize`). -/
theorem connection_failure_handle (env : LspEnv) (s : LspState)
    (hinv : liveInv s)
    (hc : workspaceHasConfigFile env.disc = true)
    (hr : env.resolveOk = true)
    (hs : env.startOk = false) :
    (reInitializeSession env s).2 = some LspErr.connectionFailed ∧
    (reInitializeSession env s).1.client = some s.nextId ∧
    (reInitializeSession env s).1.live = [s.nextId] ∧
    (disposeSession (reInitializeSession env s).1).1.client = none ∧
    (disposeSession (reInitializeSession env s).1).1.live = [] := by
  have hrel := releaseClient_of_liveInv s hinv
  unfold reInitializeSession
  rw [hrel]
  simp [hc, hr, hs, disposeSession, releaseClient, List.erase_cons_head]

theorem connection_failure_handle_witness :
    (reInitializeSession connFailEnv lspInit).2 = some LspErr.connectionFailed ∧
    (disposeSession (reInitializeSession connFailEnv lspInit).1).1.live = [] := by
  have h := connection_failure_handle connFailEnv lspInit
    (by simp [liveInv, lspInit, Option.toList]) rfl rfl rfl
  exact ⟨h.1, h.2.2.2.2⟩

/-- C9.  Idempotent dispose: `dispose` never propagates an error, always
leaves the stored handle empty, a second `dispose` is exactly a no-op, and
`dispose` of an already-stopped session (no stored client) is a no-op. -/
theorem dispose_idempotent (s : LspState) :
    (disposeSession s).2 = none ∧
    (disposeSession s).1.client = none ∧
    disposeSession (disposeSession s).1 = ((disposeSession s).1, none) ∧
    disposeSession { s with client := none } = ({ s with client := none }, none) := by
  obtain ⟨c, l, n, L⟩ := s
  cases c <;> simp [disposeSession, releaseClient]

/-- The config gate as the claim reads it: workspace discovery with
maxResults 1 finds a file, or there is a first workspace folder whose
ancestor directories contain one. -/
def workspaceHasConfigFileClaim (env : DiscEnv) : Prop :=
  env.discover 1 ≠ [] ∨
    ∃ f, env.workspaceFolders.head? = some f ∧ env.ancestorDirsContain f = true

/-- C10.  Scope of the config gate: the source function agrees with the
claim reading; with no workspace folders the ancestor search is skipped
and the result is workspace discovery alone; and the result depends only
on the discovery result, the first folder, and the ancestor answer for
that first folder — ancestor directories of any other folder are never
consulted. -/
theorem workspaceHasConfigFile_scope (env : DiscEnv) :
    (workspaceHasConfigFile env = true ↔ workspaceHasConfigFileClaim env) ∧
    (env.workspaceFolders = [] →
      workspaceHasConfigFile env = decide (0 < (env.discover 1).length)) ∧
    (∀ env2 : DiscEnv,
      env.discover 1 = env2.discover 1 →
      env.workspaceFolders.head? = env2.workspaceFolders.head? →
      (∀ f, env.workspaceFolders.head? = some f →
        env.ancestorDirsContain f = env2.ancestorDirsContain f) →
      workspaceHasConfigFile env = workspaceHasConfigFile env2) := by
  refine ⟨?_, ?_, ?_⟩
  · by_cases hl : 0 < (env.discover 1).length
    · refine ⟨fun _ => Or.inl (List.length_pos.mp hl), fun _ => ?_⟩
      simp [workspaceHasConfigFile, hl]
    · have hemp : env.discover 1 = [] := by
        rcases List.eq_nil_or_concat (env.discover 1) with h | ⟨l, b, h⟩
        · exact h
        · exact absurd (by rw [h]; simp) hl
      cases hh : env.workspaceFolders.head? with
      | none =>
          constructor
          · intro habs
            unfold workspaceHasConfigFile at habs
            rw [if_neg hl, hh] at habs
            simp at habs
          · rintro (hne | ⟨f, hf, _⟩)
            · exact absurd hemp hne
            · rw [hh] at hf
              exact absurd hf (by simp)
      | some f =>
          have heq : workspaceHasConfigFile env = env.ancestorDirsContain f := by
            unfold workspaceHasConfigFile
            rw [if_neg hl, hh]
          constructor
          · intro hanc
            rw [heq] at hanc
            exact Or.inr ⟨f, hh, hanc⟩
          · rintro (hne | ⟨g, hg, hanc⟩)
            · exact absurd hemp hne
            · rw [hh] at hg
              obtain rfl : f = g := by simpa using hg
              rw [heq]
              exact hanc
  · intro hempty
    by_cases hl : 0 < (env.discover 1).length <;>
      simp [workspaceHasConfigFile, hempty, hl]
  · intro env2 h1 h2 h3
    unfold workspaceHasConfigFile
    rw [← h1]
    by_cases hl : 0 < (env.discover 1).length
    · simp [hl]
    · simp only [hl, if_false]
      rw [← h2]
      cases hh : env.workspaceFolders.head? with
      | none => rfl
      | some f => exact h3 f hh

theorem workspaceHasConfigFile_scope_witness :
    workspaceHasConfigFile ⟨fun _ => [], [3, 4], fun u => u == 3⟩
      = workspaceHasConfigFile ⟨fun _ => [], [3, 9], fun u => u == 3 || u == 9⟩ := by
  have h := workspaceHasConfigFile_scope ⟨fun _ => [], [3, 4], fun u => u == 3⟩
  refine h.2.2 ⟨fun _ => [], [3, 9], fun u => u == 3 || u == 9⟩ rfl rfl ?_
  intro f hf
  have hf3 : f = 3 := by simpa using hf.symm
  rw [hf3]
  decide

end DprintVscode
